import Mathlib

/-
Verification of the eventforwarder package (lab-attendance repository),
a websocket fan-out relay: a registry of websocket clients, an event
broadcaster with a key filter, per-connection heartbeat and liveness
reader tasks, and a periodic websocket-count telemetry reporter.

The Go source (src/eventforwarder/eventforwarder.go) is shallowly
embedded below.  Connections are pointer values (`Option Nat`, `none`
being the nil pointer), the registry is the key set of the Go map
`wsClients`, and each operation is embedded as a pure function that
returns the new registry together with the list of observable actions
(lock/unlock of `clientMux`, websocket writes, closes, map mutations,
log calls, goroutine launches) it performs, in source order.
-/

namespace EventForwarder

/-- A `*websocket.Conn` pointer value: `none` is the nil pointer, `some n`
identifies a live connection. -/
abbrev Conn := Option Nat

/-- The fields of `events.Event` used by the forwarder (timestamps as
naturals, device/room info as strings). -/
structure Event where
  GeneratingSystem : String := ""
  Timestamp : Nat := 0
  EventTags : List String := []
  TargetDevice : String := ""
  AffectedRoom : String := ""
  Key : String := ""
  Value : String := ""
deriving DecidableEq, Repr

/-- Constant `writeWait` (seconds; Go: `10 * time.Second`). -/
def writeWait : Nat := 10

/-- Constant `pongWait` (seconds; Go: `60 * time.Second`). -/
def pongWait : Nat := 60

/-- Constant `maxMessageSize` (bytes), the inbound read limit. -/
def maxMessageSize : Nat := 512

/-- Constant `pingPeriod` (seconds; Go: `30 * time.Second`). -/
def pingPeriod : Nat := 30

/-- Observable actions of the embedded operations, in source order. -/
inductive Action where
  | lock
  | unlock
  | setWriteDeadline (c : Conn)
  | writeJSON (c : Conn) (e : Event)
  | logError
  | logInfo
  | logDebug
  | writeCloseFrame (c : Conn)
  | closeConn (c : Conn)
  | mapDelete (c : Conn)
  | mapInsert (c : Conn)
  | startHandleClose (c : Conn)
  | startPingWebSocket (c : Conn)
  | writePing (c : Conn)
  | setReadLimit (c : Conn) (n : Nat)
  | setReadDeadline (c : Conn)
  | sendEvent (e : Event)
deriving DecidableEq, Repr

/-- The registry: the key set of the Go map `wsClients` (all stored
values are `true`, so only the key set matters).  Kept as a duplicate-free
list. -/
abbrev Registry := List Conn

/-- Go `s.wsClients[c] = true`: map insert (no-op on the key set if the
key is already present). -/
def mapInsertConn (reg : Registry) (c : Conn) : Registry :=
  if c ∈ reg then reg else reg ++ [c]

/-- Go `delete(s.wsClients, c)`: map delete (a no-op if the key is
absent). -/
def mapDeleteConn (reg : Registry) (c : Conn) : Registry :=
  reg.erase c

/-- One body of the `for c := range s.wsClients` loop of `ForwardEvent`:
set the write deadline, attempt `WriteJSON`; on error (the environment
`w c = false`), log, delete `c` from the map, send a close frame and
close `c`.  Returns the registry after the body and the actions it
performed. -/
def forwardStep (w : Conn → Bool) (e : Event) (reg : Registry) (c : Conn) :
    Registry × List Action :=
  if w c then
    (reg, [Action.setWriteDeadline c, Action.writeJSON c e])
  else
    (mapDeleteConn reg c,
      [Action.setWriteDeadline c, Action.writeJSON c e, Action.logError,
       Action.mapDelete c, Action.writeCloseFrame c, Action.closeConn c])

/-- The `for c := range s.wsClients` loop of `ForwardEvent`, iterating
over the snapshot `l` of the key set taken when the lock was acquired
(the loop only ever deletes the key it is currently visiting, so every
other key of the snapshot is still visited, as Go guarantees for a
`range` over a map). -/
def forwardLoop (w : Conn → Bool) (e : Event) :
    List Conn → Registry → Registry × List Action
  | [], reg => (reg, [])
  | c :: rest, reg =>
      let s := forwardStep w e reg c
      let r := forwardLoop w e rest s.1
      (r.1, s.2 ++ r.2)

/-- The registry contents observed after each body of the
`ForwardEvent` loop (the intermediate states of the map during the
broadcast pass). -/
def forwardStates (w : Conn → Bool) (e : Event) :
    List Conn → Registry → List Registry
  | [], _ => []
  | c :: rest, reg =>
      let s := forwardStep w e reg c
      s.1 :: forwardStates w e rest s.1

/-- Go `ForwardEvent`: if the event key is `"login"` or
`"card-read-error"`, lock `clientMux`, run the write loop over the
registry, unlock; otherwise do nothing. -/
def ForwardEvent (w : Conn → Bool) (e : Event) (reg : Registry) :
    Registry × List Action :=
  if e.Key = "login" ∨ e.Key = "card-read-error" then
    let r := forwardLoop w e reg reg
    (r.1, Action.lock :: r.2 ++ [Action.unlock])
  else
    (reg, [])

/-- Number of `WriteJSON` attempts directed at connection `c` in an
action trace. -/
def countWritesTo (c : Conn) (acts : List Action) : Nat :=
  (acts.filter fun a =>
    match a with
    | Action.writeJSON x _ => decide (x = c)
    | _ => false).length

/-- Number of `Close` calls on connection `c` in an action trace. -/
def countCloses (c : Conn) (acts : List Action) : Nat :=
  (acts.filter fun a =>
    match a with
    | Action.closeConn x => decide (x = c)
    | _ => false).length

theorem countWritesTo_append (c : Conn) (a b : List Action) :
    countWritesTo c (a ++ b) = countWritesTo c a + countWritesTo c b := by
  simp [countWritesTo, List.filter_append]

theorem forwardStep_writes_self (w : Conn → Bool) (e : Event)
    (reg : Registry) (c : Conn) :
    0 < countWritesTo c (forwardStep w e reg c).2 := by
  by_cases h : w c <;> simp [forwardStep, h, countWritesTo]

theorem forwardLoop_writes_mem (w : Conn → Bool) (e : Event) :
    ∀ (l : List Conn) (reg : Registry) (c : Conn), c ∈ l →
      0 < countWritesTo c (forwardLoop w e l reg).2 := by
  intro l
  induction l with
  | nil => intro reg c hc; cases hc
  | cons d rest ih =>
      intro reg c hc
      simp only [forwardLoop, countWritesTo_append]
      rcases List.mem_cons.mp hc with h | h
      · subst h
        exact Nat.lt_of_lt_of_le (forwardStep_writes_self w e reg c)
          (Nat.le_add_right _ _)
      · exact Nat.lt_of_lt_of_le (ih _ c h) (Nat.le_add_left _ _)

/-- C1: for every event `e`, `ForwardEvent` performs zero `WriteJSON`
attempts on a registered connection iff `e.Key` is outside the allow-set
\x7b"login", "card-read-error"\x7d, and when the key is outside the
allow-set `ForwardEvent` returns immediately, leaving the registry
untouched and performing no action at all. -/
theorem C1_filter (w : Conn → Bool) (e : Event) (reg : Registry) :
    (¬(e.Key = "login" ∨ e.Key = "card-read-error") →
        ForwardEvent w e reg = (reg, [])) ∧
    ∀ c ∈ reg,
      (countWritesTo c (ForwardEvent w e reg).2 = 0 ↔
        ¬(e.Key = "login" ∨ e.Key = "card-read-error")) := by
  constructor
  · intro h
    simp [ForwardEvent, h]
  · intro c hc
    by_cases h : e.Key = "login" ∨ e.Key = "card-read-error"
    · simp only [ForwardEvent, if_pos h]
      constructor
      · intro h0
        exfalso
        have := forwardLoop_writes_mem w e reg reg c hc
        have : 0 < countWritesTo c
            (Action.lock :: (forwardLoop w e reg reg).2 ++ [Action.unlock]) := by
          simpa [countWritesTo, List.filter_append] using this
        omega
      · intro hniff; exact absurd h hniff
    · simp [ForwardEvent, h, countWritesTo]

/-- Witness for C1 at a concrete allowed event and one-connection
registry: the write count is nonzero. -/
theorem C1_filter_witness :
    countWritesTo (some 0)
      (ForwardEvent (fun _ => true) { Key := "login" } [some 0]).2 ≠ 0 :=
  fun h =>
    (((C1_filter (fun _ => true) { Key := "login" } [some 0]).2 (some 0)
      (by decide)).mp h) (Or.inl rfl)

theorem forwardEvent_eq_of_key (w : Conn → Bool) (e : Event) (reg : Registry)
    (hkey : e.Key = "login" ∨ e.Key = "card-read-error") :
    ForwardEvent w e reg =
      ((forwardLoop w e reg reg).1,
        Action.lock :: (forwardLoop w e reg reg).2 ++ [Action.unlock]) := by
  rw [ForwardEvent, if_pos hkey]

/-- C2: in a broadcast pass over registered connections `[a, b, c]` where
the write to `a` fails and the writes to `b` and `c` succeed, all three
connections receive a write attempt, `a` is removed from the registry
and closed (close frame then close), and `b` and `c` remain registered
and are not closed: a per-connection write failure never aborts the
broadcast to the remaining connections. -/
theorem C2_isolation (w : Conn → Bool) (e : Event) (a b c : Conn)
    (hab : a ≠ b) (hac : a ≠ c) (hbc : b ≠ c)
    (ha : w a = false) (hb : w b = true) (hc : w c = true)
    (hkey : e.Key = "login" ∨ e.Key = "card-read-error") :
    0 < countWritesTo a (ForwardEvent w e [a, b, c]).2 ∧
    0 < countWritesTo b (ForwardEvent w e [a, b, c]).2 ∧
    0 < countWritesTo c (ForwardEvent w e [a, b, c]).2 ∧
    (ForwardEvent w e [a, b, c]).1 = [b, c] ∧
    Action.writeCloseFrame a ∈ (ForwardEvent w e [a, b, c]).2 ∧
    Action.closeConn a ∈ (ForwardEvent w e [a, b, c]).2 ∧
    Action.closeConn b ∉ (ForwardEvent w e [a, b, c]).2 ∧
    Action.closeConn c ∉ (ForwardEvent w e [a, b, c]).2 := by
  have hloop : forwardLoop w e [a, b, c] [a, b, c] =
      ([b, c],
        [Action.setWriteDeadline a, Action.writeJSON a e, Action.logError,
         Action.mapDelete a, Action.writeCloseFrame a, Action.closeConn a,
         Action.setWriteDeadline b, Action.writeJSON b e,
         Action.setWriteDeadline c, Action.writeJSON c e]) := by
    simp [forwardLoop, forwardStep, mapDeleteConn, ha, hb, hc,
      List.erase_cons_head]
  rw [forwardEvent_eq_of_key w e [a, b, c] hkey, hloop]
  refine ⟨?_, ?_, ?_, rfl, ?_, ?_, ?_, ?_⟩ <;>
    simp [countWritesTo, hab, hac, hbc, Ne.symm hab, Ne.symm hac, Ne.symm hbc]

/-- Witness for C2 at concrete connections 0, 1, 2 where the write to
connection 0 fails. -/
theorem C2_isolation_witness :
    0 < countWritesTo (some 0)
      (ForwardEvent (fun x => decide (x ≠ some 0)) { Key := "login" }
        [some 0, some 1, some 2]).2 ∧
    0 < countWritesTo (some 1)
      (ForwardEvent (fun x => decide (x ≠ some 0)) { Key := "login" }
        [some 0, some 1, some 2]).2 ∧
    0 < countWritesTo (some 2)
      (ForwardEvent (fun x => decide (x ≠ some 0)) { Key := "login" }
        [some 0, some 1, some 2]).2 ∧
    (ForwardEvent (fun x => decide (x ≠ some 0)) { Key := "login" }
      [some 0, some 1, some 2]).1 = [some 1, some 2] ∧
    Action.writeCloseFrame (some 0) ∈
      (ForwardEvent (fun x => decide (x ≠ some 0)) { Key := "login" }
        [some 0, some 1, some 2]).2 ∧
    Action.closeConn (some 0) ∈
      (ForwardEvent (fun x => decide (x ≠ some 0)) { Key := "login" }
        [some 0, some 1, some 2]).2 ∧
    Action.closeConn (some 1) ∉
      (ForwardEvent (fun x => decide (x ≠ some 0)) { Key := "login" }
        [some 0, some 1, some 2]).2 ∧
    Action.closeConn (some 2) ∉
      (ForwardEvent (fun x => decide (x ≠ some 0)) { Key := "login" }
        [some 0, some 1, some 2]).2 :=
  C2_isolation (fun x => decide (x ≠ some 0)) { Key := "login" }
    (some 0) (some 1) (some 2) (by decide) (by decide) (by decide)
    (by decide) (by decide) (by decide) (Or.inl rfl)

/-- Go `HandleWebsocket`: the upgrade result is `Except.ok c` for a
successful `upgrader.Upgrade` and `Except.error msg` for a failed one
(in which case gorilla returns a nil `*websocket.Conn` together with the
error).  The source logs an upgrade error but does not return, so on
failure it falls through and registers the nil pointer and starts both
per-connection goroutines on it. -/
def HandleWebsocket (upgrade : Except String Conn) (reg : Registry) :
    Registry × List Action :=
  match upgrade with
  | Except.error _ =>
      (mapInsertConn reg none,
        [Action.logError, Action.lock, Action.mapInsert none,
         Action.startHandleClose none, Action.startPingWebSocket none,
         Action.unlock])
  | Except.ok c =>
      (mapInsertConn reg c,
        [Action.lock, Action.mapInsert c, Action.startHandleClose c,
         Action.startPingWebSocket c, Action.unlock])

/-- C3 (code bug): on a failed upgrade, `HandleWebsocket` logs the error
but does not drop the request: starting from an empty registry it
registers the nil connection and starts both per-connection tasks on
it, contradicting the claim that a failed upgrade leaves the registry
unmutated and starts no tasks. -/
theorem C3_upgradeFailure_bug :
    (HandleWebsocket (Except.error "upgrade failed") []).1 = [none] ∧
    Action.mapInsert none ∈
      (HandleWebsocket (Except.error "upgrade failed") []).2 ∧
    Action.startHandleClose none ∈
      (HandleWebsocket (Except.error "upgrade failed") []).2 ∧
    Action.startPingWebSocket none ∈
      (HandleWebsocket (Except.error "upgrade failed") []).2 := by
  decide

/-- C4 counterexample: in a broadcast pass over registry
`[some 0, some 1]` where the write to `some 0` fails, the registry is
already mutated after the first loop body, while the iteration is still
in progress — refuting the claim that the member set is never mutated
during the iteration and that removals happen only after the pass. -/
theorem C4_cex :
    ¬ ∀ st ∈ forwardStates (fun x => decide (x ≠ some 0)) { Key := "login" }
        [some 0, some 1] [some 0, some 1], st = [some 0, some 1] := by
  decide

/-- C4 amended: a connection whose write fails is deleted from the
registry immediately, during the iteration itself (the loop body that
visits it performs the map delete at once, rather than marking it and
dropping it after the pass); since only the member currently being
visited is deleted, every member of the snapshot still receives its
write attempt and the broadcast completes. -/
theorem C4_amended (w : Conn → Bool) (e : Event) (c : Conn)
    (rest : List Conn) (reg : Registry) (hfail : w c = false) :
    (forwardStates w e (c :: rest) reg).head? =
      some (mapDeleteConn reg c) ∧
    ∀ x ∈ c :: rest,
      0 < countWritesTo x (forwardLoop w e (c :: rest) reg).2 := by
  constructor
  · simp [forwardStates, forwardStep, hfail]
  · intro x hx
    exact forwardLoop_writes_mem w e _ reg x hx

/-- Witness for C4 amended at concrete connections 0 and 1 where the
write to connection 0 fails. -/
theorem C4_amended_witness :
    (forwardStates (fun x => decide (x ≠ some 0)) { Key := "login" }
      (some 0 :: [some 1]) [some 0, some 1]).head? =
        some (mapDeleteConn [some 0, some 1] (some 0)) ∧
    ∀ x ∈ some 0 :: [some 1],
      0 < countWritesTo x
        (forwardLoop (fun x => decide (x ≠ some 0)) { Key := "login" }
          (some 0 :: [some 1]) [some 0, some 1]).2 :=
  C4_amended (fun x => decide (x ≠ some 0)) { Key := "login" }
    (some 0) [some 1] [some 0, some 1] (by decide)

/-- Read loop of `handleClose`: `ReadMessage` succeeds on an inbound
frame of size at most the read limit (the loop logs the message and
continues) and fails on a larger frame (the read error breaks the
loop); when the frames are exhausted the read deadline eventually
expires, which is also a read error breaking the loop. -/
def handleCloseReads (limit : Nat) : List Nat → List Action
  | [] => []
  | f :: rest =>
      if f ≤ limit then Action.logInfo :: handleCloseReads limit rest
      else []

/-- Go `handleClose` (the per-connection liveness reader): sets the read
limit to `maxMessageSize` and the read deadline, reads inbound frames
until a read error, and then — through its deferred function — deletes
the connection from `wsClients` (without acquiring `clientMux`), sends a
close frame and closes the connection. -/
def handleClose (c : Conn) (frames : List Nat) (reg : Registry) :
    Registry × List Action :=
  (mapDeleteConn reg c,
    Action.setReadLimit c maxMessageSize :: Action.setReadDeadline c ::
      (handleCloseReads maxMessageSize frames ++
        [Action.mapDelete c, Action.writeCloseFrame c, Action.closeConn c]))

theorem handleCloseReads_oversize (limit big : Nat) (post : List Nat)
    (hbig : limit < big) :
    ∀ pre : List Nat, (∀ f ∈ pre, f ≤ limit) →
      handleCloseReads limit (pre ++ big :: post) =
        pre.map (fun _ => Action.logInfo) := by
  intro pre
  induction pre with
  | nil => intro _; simp [handleCloseReads, Nat.not_le.mpr hbig]
  | cons f rest ih =>
      intro h
      have hf : f ≤ limit := h f (List.mem_cons_self f rest)
      simp [handleCloseReads, hf,
        ih fun x hx => h x (List.mem_cons_of_mem f hx)]

/-- C10: the inbound read limit is the fixed constant 512 bytes, set by
the liveness reader; a frame exceeding it causes a read error at that
frame (later frames are never read), which the reader treats like any
other read failure: the connection is deleted from the registry, sent a
close frame and closed. -/
theorem C10_readLimit (c : Conn) (pre : List Nat) (big : Nat)
    (post : List Nat) (reg : Registry)
    (hpre : ∀ f ∈ pre, f ≤ maxMessageSize) (hbig : maxMessageSize < big) :
    maxMessageSize = 512 ∧
    handleClose c (pre ++ big :: post) reg =
      (mapDeleteConn reg c,
        Action.setReadLimit c 512 :: Action.setReadDeadline c ::
          (pre.map (fun _ => Action.logInfo) ++
            [Action.mapDelete c, Action.writeCloseFrame c,
             Action.closeConn c])) := by
  constructor
  · decide
  · simp only [handleClose, handleCloseReads_oversize maxMessageSize big post
      hbig pre hpre]
    simp [maxMessageSize]

/-- Witness for C10: a 600-byte frame after a 10-byte frame; the 600-byte
frame errors the reader, the following 1-byte frame is never read, and
connection 0 is removed and closed. -/
theorem C10_readLimit_witness :
    maxMessageSize = 512 ∧
    handleClose (some 0) ([10] ++ 600 :: [1]) [some 0] =
      (mapDeleteConn [some 0] (some 0),
        Action.setReadLimit (some 0) 512 :: Action.setReadDeadline (some 0) ::
          ([10].map (fun _ => Action.logInfo) ++
            [Action.mapDelete (some 0), Action.writeCloseFrame (some 0),
             Action.closeConn (some 0)])) :=
  C10_readLimit (some 0) [10] 600 [1] [some 0] (by decide) (by decide)

theorem countCloses_append (c : Conn) (a b : List Action) :
    countCloses c (a ++ b) = countCloses c a + countCloses c b := by
  simp [countCloses, List.filter_append]

theorem handleCloseReads_mem_logInfo (limit : Nat) :
    ∀ frames : List Nat, ∀ a ∈ handleCloseReads limit frames,
      a = Action.logInfo := by
  intro frames
  induction frames with
  | nil => intro a ha; simp [handleCloseReads] at ha
  | cons f rest ih =>
      intro a ha
      by_cases hf : f ≤ limit
      · rw [handleCloseReads, if_pos hf] at ha
        rcases List.mem_cons.mp ha with h | h
        · exact h
        · exact ih a h
      · rw [handleCloseReads, if_neg hf] at ha
        simp at ha

theorem forwardStep_closes_self (w : Conn → Bool) (e : Event)
    (reg : Registry) (c : Conn) (hfail : w c = false) :
    0 < countCloses c (forwardStep w e reg c).2 := by
  simp [forwardStep, hfail, countCloses]

theorem forwardLoop_closes_mem (w : Conn → Bool) (e : Event) :
    ∀ (l : List Conn) (reg : Registry) (c : Conn), c ∈ l → w c = false →
      0 < countCloses c (forwardLoop w e l reg).2 := by
  intro l
  induction l with
  | nil => intro reg c hc; cases hc
  | cons d rest ih =>
      intro reg c hc hfail
      simp only [forwardLoop, countCloses_append]
      rcases List.mem_cons.mp hc with h | h
      · subst h
        exact Nat.lt_of_lt_of_le (forwardStep_closes_self w e reg c hfail)
          (Nat.le_add_right _ _)
      · exact Nat.lt_of_lt_of_le (ih _ c h hfail) (Nat.le_add_left _ _)

/-- C5 counterexample: the channel is not closed at most once across the
removal paths.  Concretely, with registry `[some 0]` and a failing
write, the broadcast path removes and closes connection 0, and the
liveness reader's deferred cleanup for the same connection then sends a
second close frame and closes it again: the combined trace contains two
`Close` calls, refuting the at-most-once claim. -/
theorem C5_cex :
    ¬ countCloses (some 0)
        ((ForwardEvent (fun _ => false) { Key := "login" } [some 0]).2 ++
          (handleClose (some 0) []
            (ForwardEvent (fun _ => false) { Key := "login" } [some 0]).1).2)
        ≤ 1 := by
  decide

/-- C5 amended: deleting a connection that is already absent from the
registry map is a no-op that never errors; but closure is not
at-most-once: each removal path closes unconditionally — the liveness
reader's cleanup always performs exactly one `Close`, and the broadcast
path performs a `Close` whenever a registered connection's write fails —
so a connection removed by both paths is closed twice. -/
theorem C5_idempotence_amended (c : Conn) (reg reg2 : Registry)
    (w : Conn → Bool) (e : Event) (frames : List Nat)
    (habsent : c ∉ reg) (hc2 : c ∈ reg2) (hfail : w c = false)
    (hkey : e.Key = "login" ∨ e.Key = "card-read-error") :
    mapDeleteConn reg c = reg ∧
    countCloses c (handleClose c frames reg).2 = 1 ∧
    0 < countCloses c (ForwardEvent w e reg2).2 := by
  refine ⟨List.erase_of_not_mem habsent, ?_, ?_⟩
  · simp [handleClose, countCloses, List.filter_append]
    intro a ha
    simp [handleCloseReads_mem_logInfo maxMessageSize frames a ha]
  · rw [forwardEvent_eq_of_key w e reg2 hkey]
    have := forwardLoop_closes_mem w e reg2 reg2 c hc2 hfail
    simpa [countCloses, List.filter_append] using this

/-- Witness for C5 amended: connection 0 absent from `[some 1]`,
registered in `[some 0]`, with an always-failing write. -/
theorem C5_idempotence_amended_witness :
    mapDeleteConn [some 1] (some 0) = [some 1] ∧
    countCloses (some 0) (handleClose (some 0) [] [some 1]).2 = 1 ∧
    0 < countCloses (some 0)
        (ForwardEvent (fun _ => false) { Key := "login" } [some 0]).2 :=
  C5_idempotence_amended (some 0) [some 1] [some 0] (fun _ => false)
    { Key := "login" } [] (by decide) (by decide) (by decide) (Or.inl rfl)

/-- Checks that every map mutation (`mapInsert`/`mapDelete`) in an
action trace happens while `clientMux` is held, tracking the lock depth
from `d`. -/
def actsLockedFrom (d : Nat) : List Action → Bool
  | [] => true
  | a :: rest =>
      match a with
      | Action.lock => actsLockedFrom (d + 1) rest
      | Action.unlock => actsLockedFrom (d - 1) rest
      | Action.mapInsert _ => if 0 < d then actsLockedFrom d rest else false
      | Action.mapDelete _ => if 0 < d then actsLockedFrom d rest else false
      | _ => actsLockedFrom d rest

/-- True iff every registry mutation in the trace is performed while the
mutual-exclusion lock is held. -/
def registryOpsLocked (acts : List Action) : Bool :=
  actsLockedFrom 0 acts

theorem actsLockedFrom_forwardLoop (w : Conn → Bool) (e : Event) :
    ∀ (l : List Conn) (reg : Registry) (d : Nat) (rest : List Action),
      0 < d →
      actsLockedFrom d ((forwardLoop w e l reg).2 ++ rest) =
        actsLockedFrom d rest := by
  intro l
  induction l with
  | nil => intro reg d rest _; simp [forwardLoop]
  | cons c cs ih =>
      intro reg d rest hd
      by_cases hw : w c
      · simp [forwardLoop, forwardStep, hw, actsLockedFrom, ih _ d _ hd]
      · simp [forwardLoop, forwardStep, hw, actsLockedFrom, hd, ih _ d _ hd]

theorem actsLockedFrom_handleCloseReads (limit : Nat) :
    ∀ (frames : List Nat) (d : Nat) (rest : List Action),
      actsLockedFrom d (handleCloseReads limit frames ++ rest) =
        actsLockedFrom d rest := by
  intro frames
  induction frames with
  | nil => intro d rest; simp [handleCloseReads]
  | cons f fr ih =>
      intro d rest
      by_cases hf : f ≤ limit <;>
        simp [handleCloseReads, hf, actsLockedFrom, ih d rest]

/-- C7 (code bug): the admission path and the broadcast path do acquire
`clientMux` around their registry mutations, but the liveness reader's
removal path does not: `handleClose`'s deferred `delete(s.wsClients, c)`
runs without the lock, so not every registry operation is serialized by
the mutual-exclusion lock. -/
theorem C7_locking_bug (upgrade : Except String Conn) (reg : Registry)
    (w : Conn → Bool) (e : Event) (c : Conn) (frames : List Nat) :
    registryOpsLocked (HandleWebsocket upgrade reg).2 = true ∧
    registryOpsLocked (ForwardEvent w e reg).2 = true ∧
    registryOpsLocked (handleClose c frames reg).2 = false := by
  refine ⟨?_, ?_, ?_⟩
  · cases upgrade <;> simp [HandleWebsocket, registryOpsLocked, actsLockedFrom]
  · by_cases hkey : e.Key = "login" ∨ e.Key = "card-read-error"
    · rw [forwardEvent_eq_of_key w e reg hkey]
      simp [registryOpsLocked, actsLockedFrom,
        actsLockedFrom_forwardLoop w e reg reg 1 [Action.unlock] Nat.one_pos]
    · simp [ForwardEvent, hkey, registryOpsLocked, actsLockedFrom]
  · simp [handleClose, registryOpsLocked, actsLockedFrom,
      actsLockedFrom_handleCloseReads maxMessageSize frames 0]

/-- Loop control of the `pingWebSocket` for-loop. -/
inductive LoopCtl where
  | cont
  | stop
deriving DecidableEq, Repr

/-- One ticker tick of the `pingWebSocket` for/select loop: set the
write deadline and attempt the ping write with result `ok`.  The error
branch of the source executes `break`, but inside a `select` statement a
bare `break` terminates only the select, not the enclosing `for`, so the
loop control is `cont` in both branches. -/
def pingIteration (c : Conn) (ok : Bool) : List Action × LoopCtl :=
  if ok then
    ([Action.setWriteDeadline c, Action.writePing c], LoopCtl.cont)
  else
    ([Action.setWriteDeadline c, Action.writePing c], LoopCtl.cont)

/-- The actions of `pingWebSocket` through its first `n` ticker ticks,
where `ok t` tells whether the ping write at tick `t` succeeds, together
with the loop control after those ticks. -/
def pingActions (c : Conn) (ok : Nat → Bool) : Nat → List Action × LoopCtl
  | 0 => ([], LoopCtl.cont)
  | n + 1 =>
      match pingActions c ok n with
      | (acts, LoopCtl.stop) => (acts, LoopCtl.stop)
      | (acts, LoopCtl.cont) =>
          let it := pingIteration c (ok n)
          (acts ++ it.1, it.2)

/-- Number of ping probe writes to connection `c` in an action trace. -/
def countPings (c : Conn) (acts : List Action) : Nat :=
  (acts.filter fun a =>
    match a with
    | Action.writePing x => decide (x = c)
    | _ => false).length

/-- C6 (code bug): when the ping write at the first tick fails, the
heartbeat loop does not stop: after the failed write its loop control is
still `cont`, the second tick sends a further probe (two probe writes in
two ticks), and the ping path itself never deletes the connection from
the registry.  The `break` in the source exits only the `select`
statement, not the `for` loop, contradicting the claim that the sender
stops and sends no further probes. -/
theorem C6_pingLoop_bug :
    (pingActions (some 0) (fun _ => false) 1).2 = LoopCtl.cont ∧
    countPings (some 0) (pingActions (some 0) (fun _ => false) 2).1 = 2 ∧
    Action.mapDelete (some 0) ∉ (pingActions (some 0) (fun _ => false) 2).1 := by
  decide

/-- External constant `events.DetailState`: an opaque event-tag string
whose concrete value lives in the external events package and is never
inspected by the core. -/
def DetailState : String := "detail-state"

/-- Configuration of the reporter loop after its startup: the system id,
the generated device and room info (opaque pass-through strings), whether
the messenger was built, and the actions performed during startup. -/
structure ReporterCfg where
  id : String
  deviceInfo : String
  roomInfo : String
  messengerOk : Bool
  startupActs : List Action
deriving DecidableEq, Repr

/-- Modelled from the spec: the system-identity lookup
(`localsystem.MustSystemID`) lives outside this repository; per the
spec's external-interface description its unavailability is a
startup-fatal condition for the reporter task, so a failed lookup
(`sysID = none`) aborts `reportWebSocketCount` before its loop (result
`none`).  On a successful lookup the source generates device and room
info and builds the messenger; a messenger build failure is logged and
leaves the messenger nil, and the loop is entered either way. -/
def reportStartup (sysID : Option String) (dev room : String)
    (buildOk : Bool) : Option ReporterCfg :=
  match sysID with
  | none => none
  | some id =>
      some { id := id, deviceInfo := dev, roomInfo := room,
             messengerOk := buildOk,
             startupActs := if buildOk then [] else [Action.logError] }

/-- The websocket-count event built by one reporter iteration at tick
`t` with registry size `size` (Go: `fmt.Sprintf("%v", len(s.wsClients))`
for the value). -/
def countEvent (id dev room : String) (t size : Nat) : Event :=
  { GeneratingSystem := id, Timestamp := t, EventTags := [DetailState],
    TargetDevice := dev, AffectedRoom := room,
    Key := "websocket-count", Value := toString size }

/-- One iteration of the reporter loop at tick `t` with current registry
size `size`: log the count at debug level, build the count event, and
send it iff the messenger is non-nil. -/
def reporterIter (cfg : ReporterCfg) (t size : Nat) : List Action :=
  Action.logDebug ::
    (if cfg.messengerOk then
      [Action.sendEvent (countEvent cfg.id cfg.deviceInfo cfg.roomInfo t size)]
    else [])

/-- The actions of the first `n` iterations of the reporter loop, where
`sizes t` is the registry size (`len(s.wsClients)`) read at tick `t`.
The loop has no stopping state: it is defined at every `n` and always
appends the next iteration. -/
def reporterTrace (cfg : ReporterCfg) (sizes : Nat → Nat) :
    Nat → List Action
  | 0 => []
  | n + 1 => reporterTrace cfg sizes n ++ reporterIter cfg n (sizes n)

/-- The events sent (`messenger.SendEvent`) in an action trace. -/
def sentEvents (acts : List Action) : List Event :=
  acts.filterMap fun a =>
    match a with
    | Action.sendEvent e => some e
    | _ => none

theorem sentEvents_append (a b : List Action) :
    sentEvents (a ++ b) = sentEvents a ++ sentEvents b := by
  simp [sentEvents, List.filterMap_append]

theorem sentEvents_reporterTrace_of_not_messenger (id dev room : String)
    (acts : List Action) (sizes : Nat → Nat) :
    ∀ n : Nat,
      sentEvents (reporterTrace
        { id := id, deviceInfo := dev, roomInfo := room,
          messengerOk := false, startupActs := acts } sizes n) = [] := by
  intro n
  induction n with
  | zero => simp [reporterTrace, sentEvents]
  | succ n ih =>
      simp only [reporterTrace, sentEvents_append, ih]
      simp [reporterIter, sentEvents]

/-- C8 counterexample: when the identity lookup fails, the reporter does
not log-and-continue with telemetry skipped; its startup yields no
running loop configuration at all (the lookup is startup-fatal), refuting
the claim that sending is merely skipped while identity is unavailable. -/
theorem C8_cex :
    ¬ ∃ cfg, reportStartup none "dev" "room" true = some cfg := by
  simp [reportStartup]

/-- C8 amended: identity-lookup failure is startup-fatal to the
reporter: it aborts before its loop starts and never sends telemetry.
The log-and-skip-and-continue behavior exists only for a messenger build
failure, which is logged at startup and leaves the loop running with
every send skipped. -/
theorem C8_identity_amended (dev room id : String) (buildOk : Bool)
    (sizes : Nat → Nat) (n : Nat) :
    reportStartup none dev room buildOk = none ∧
    reportStartup (some id) dev room false =
      some { id := id, deviceInfo := dev, roomInfo := room,
             messengerOk := false, startupActs := [Action.logError] } ∧
    sentEvents (reporterTrace
      { id := id, deviceInfo := dev, roomInfo := room,
        messengerOk := false, startupActs := [Action.logError] }
      sizes n) = [] ∧
    reporterTrace
        { id := id, deviceInfo := dev, roomInfo := room,
          messengerOk := false, startupActs := [Action.logError] }
        sizes (n + 1) =
      reporterTrace
        { id := id, deviceInfo := dev, roomInfo := room,
          messengerOk := false, startupActs := [Action.logError] }
        sizes n ++
      reporterIter
        { id := id, deviceInfo := dev, roomInfo := room,
          messengerOk := false, startupActs := [Action.logError] }
        n (sizes n) := by
  refine ⟨rfl, by simp [reportStartup], ?_, rfl⟩
  exact sentEvents_reporterTrace_of_not_messenger id dev room
    [Action.logError] sizes n

/-- C9: the reporter loop never stops — it is defined at every tick and
iteration `n + 1` always extends iteration `n` — and with a built
messenger each iteration sends exactly one websocket-count event whose
value is the registry size read at that tick; with a failed messenger
build the failure is logged at startup and every send is skipped while
the loop keeps iterating.  No iteration aborts the loop or the process. -/
theorem C9_reporter (id dev room : String) (sizes : Nat → Nat) (n : Nat) :
    sentEvents (reporterTrace
      { id := id, deviceInfo := dev, roomInfo := room,
        messengerOk := true, startupActs := [] } sizes n) =
      (List.range n).map (fun t => countEvent id dev room t (sizes t)) ∧
    reporterTrace
        { id := id, deviceInfo := dev, roomInfo := room,
          messengerOk := true, startupActs := [] } sizes (n + 1) =
      reporterTrace
        { id := id, deviceInfo := dev, roomInfo := room,
          messengerOk := true, startupActs := [] } sizes n ++
      reporterIter
        { id := id, deviceInfo := dev, roomInfo := room,
          messengerOk := true, startupActs := [] } n (sizes n) ∧
    (reportStartup (some id) dev room false).isSome = true ∧
    (reportStartup (some id) dev room false).map ReporterCfg.startupActs =
      some [Action.logError] := by
  refine ⟨?_, rfl, by simp [reportStartup], by simp [reportStartup]⟩
  induction n with
  | zero => simp [reporterTrace, sentEvents]
  | succ n ih =>
      simp only [reporterTrace, sentEvents_append, ih, List.range_succ,
        List.map_append]
      simp [reporterIter, sentEvents]

end EventForwarder
